import Mathlib

/-!
Shallow embedding of the ml-practices repository (labs 2 and 3).

The embedding covers:
* `lab2/imgclf/dataset/dataset.py` — the `Dataset` class: `__init__`,
  `train_test_split` and `split` (including the inner call to the
  sklearn `train_test_split` utility and its size validation);
* `lab2/nfnet/nfnet_model_utils.py` — `_train_epoch` and `_get_optimizer`;
* `lab3/vae/model.py` — `Encoder.__init__`, `Decoder.__init__`,
  `VariationalAutoencoder.__init__`, `forward` and `latent_sample`.

Python floats are idealised as exact rationals; machine `int64` casts are
explicit `% 2 ^ 64` arithmetic.  Fallible Python code is embedded in
`Except PyError`, with one constructor per exception class that can be
raised on the modelled paths.  The pseudo-random shuffle performed by the
sklearn splitter is taken as an explicit argument (a permutation of the
rows); theorems quantify over it.
-/

namespace MlPractices

/-- Exception classes that the modelled code can raise.  `assertionError`
is raised only by the repository's own `assert` statements; the other
constructors correspond to exceptions raised inside library code
(sklearn size validation, pandas column lookup, torch layer construction,
the Python division operator). -/
inductive PyError where
  | assertionError
  | valueError
  | keyError
  | typeError
  | zeroDivisionError
deriving DecidableEq, Repr

instance {α β : Type} [DecidableEq α] [DecidableEq β] : DecidableEq (Except α β) :=
  fun a b =>
    match a, b with
    | .error e₁, .error e₂ =>
      if h : e₁ = e₂ then .isTrue (by rw [h]) else .isFalse (by simp [h])
    | .ok v₁, .ok v₂ =>
      if h : v₁ = v₂ then .isTrue (by rw [h]) else .isFalse (by simp [h])
    | .error _, .ok _ => .isFalse (by simp)
    | .ok _, .error _ => .isFalse (by simp)

/-! ## Pandas data model

A dataframe is a list of column names, a list of column dtypes (the two
lists are aligned), and a list of rows.  Cell values carry their Python
type. -/

/-- Numpy dtypes that occur in the modelled code paths. -/
inductive NpDtype where
  | int8 | int16 | int32 | int64
  | uint8 | uint16 | uint32 | uint64
  | float32 | float64 | boolDt | object
deriving DecidableEq, Repr

/-- `np.issubdtype (dt, np.integer)`: true exactly for the signed and
unsigned integer dtypes (numpy bools are not integer subdtypes). -/
def NpDtype.isInteger : NpDtype → Bool
  | .int8 | .int16 | .int32 | .int64 => true
  | .uint8 | .uint16 | .uint32 | .uint64 => true
  | _ => false

/-- A Python scalar value stored in a dataframe cell. -/
inductive PyVal where
  | int (i : ℤ)
  | float (q : ℚ)
  | str (s : String)
  | noneV
deriving DecidableEq, Repr

abbrev Row := List PyVal

structure DataFrame where
  colNames : List String
  dtypes : List NpDtype
  rows : List Row
deriving DecidableEq, Repr

/-- Wrap an integer into the signed 64-bit range, as `ndarray.astype
(np.int64)` does for integer inputs. -/
def int64wrap (i : ℤ) : ℤ := (i + 2 ^ 63) % 2 ^ 64 - 2 ^ 63

/-- Cast one cell to `int64` (non-integer cells are untouched; on the
modelled path the dtype assertion guarantees cells are integers). -/
def PyVal.castInt64 : PyVal → PyVal
  | .int i => .int (int64wrap i)
  | v => v

/-- Replace the element at index `i` by its image under `f`
(out-of-range indices leave the list unchanged). -/
def updateAt {α : Type} (f : α → α) : ℕ → List α → List α
  | _, [] => []
  | 0, a :: l => f a :: l
  | n + 1, a :: l => a :: updateAt f n l

/-- Position of the `label` column (length of `colNames` if absent). -/
def labelIdx (df : DataFrame) : ℕ := df.colNames.findIdx (· == "label")

/-- The pandas lookup `df.dtypes ["label"]`: `none` models the `KeyError`
raised when there is no `label` column. -/
def labelDtypeOf (df : DataFrame) : Option NpDtype :=
  if labelIdx df < df.colNames.length then df.dtypes[labelIdx df]? else none

/-- The in-place mutation `df ["label"] = df ["label"].astype (np.int64)`:
the dtype of the `label` column becomes `int64` and every cell of that
column is wrapped into the signed 64-bit range; all other columns are
untouched. -/
def castLabel (df : DataFrame) : DataFrame :=
  { df with
    dtypes := updateAt (fun _ => .int64) (labelIdx df) df.dtypes
    rows := df.rows.map (updateAt PyVal.castInt64 (labelIdx df)) }

/-- A constructed `Dataset` object: the dataframe it stores (aliasing the
dataframe passed by the caller) and its mode string.  The `config` and
`transform` attributes play no role in the claims and are omitted. -/
structure Dataset where
  df : DataFrame
  mode : String
deriving DecidableEq, Repr

/-- `Dataset.__init__`.  Returns the constructed dataset together with
the post-call state of the dataframe object passed by the caller (the
same object the dataset stores: `self.df = df`).  Follows the source
order: mode assertion, `img` column assertion, then for non-inference
modes the dtype lookup (KeyError if `label` is absent), the integer-dtype
assertion, and the in-place `astype (np.int64)` cast. -/
def Dataset.init (df : DataFrame) (mode : String) :
    Except PyError (Dataset × DataFrame) :=
  if mode ∈ (["train", "eval", "inference"] : List String) then
    if "img" ∈ df.colNames then
      if mode ≠ "inference" then
        match labelDtypeOf df with
        | none => .error .keyError
        | some dt =>
          if dt.isInteger then .ok (⟨castLabel df, mode⟩, castLabel df)
          else .error .assertionError
      else .ok (⟨df, mode⟩, df)
    else .error .assertionError
  else .error .assertionError

/-- Python `int (q)`: truncation toward zero. -/
def pyInt (q : ℚ) : ℤ := if 0 ≤ q then ⌊q⌋ else ⌈q⌉

/-- sklearn `_validate_shuffle_split` for an integer `train_size` and
`test_size = None`: raises `ValueError` unless `0 < train_size <
n_samples`, and otherwise yields `(n_train, n_test)` with `n_test =
n_samples - n_train`. -/
def validateShuffleSplit (n : ℕ) (trainSize : ℤ) : Except PyError (ℕ × ℕ) :=
  if (n : ℤ) ≤ trainSize ∨ trainSize ≤ 0 then .error .valueError
  else .ok (trainSize.toNat, n - trainSize.toNat)

/-- `Dataset.train_test_split`.  `perm` is the row list produced by the
seeded sklearn shuffle — an arbitrary permutation of the rows of `df`;
theorems quantify over it.  The sklearn call splits the shuffled rows
into a prefix of `n_train` rows and the remaining `n_test` rows, and the
two slices are handed to `Dataset.__init__` with the requested modes. -/
def Dataset.train_test_split (df : DataFrame) (r : ℚ) (perm : List Row)
    (modes : String × String) : Except PyError (Dataset × Dataset) :=
  if r < 1 then
    match validateShuffleSplit df.rows.length (pyInt ((df.rows.length : ℚ) * r)) with
    | .error e => .error e
    | .ok (nTrain, _nTest) =>
      match Dataset.init { df with rows := perm.take nTrain } modes.1 with
      | .error e => .error e
      | .ok (ds1, _) =>
        match Dataset.init { df with rows := perm.drop nTrain } modes.2 with
        | .error e => .error e
        | .ok (ds2, _) => .ok (ds1, ds2)
  else .error .assertionError

/-- `Dataset.split`.  `p1` is the shuffle used by the first inner
`train_test_split`, `p2` the shuffle used by the second (over the rows of
the eval frame).  Follows the source: the sum assertion, a first split
with the default modes `("train", "eval")`, then a second split of the
eval frame with ratio `r1 / (1 - r0)` and modes `("eval", "eval")`. -/
def Dataset.split (df : DataFrame) (r0 r1 : ℚ) (p1 p2 : List Row) :
    Except PyError (Dataset × Dataset × Dataset) :=
  if r0 + r1 ≤ 1 then
    match Dataset.train_test_split df r0 p1 ("train", "eval") with
    | .error e => .error e
    | .ok (train_set, eval_set) =>
      match Dataset.train_test_split eval_set.df (r1 / (1 - r0)) p2 ("eval", "eval") with
      | .error e => .error e
      | .ok (valid_set, test_set) => .ok (train_set, valid_set, test_set)
  else .error .assertionError

/-! ## Nfnet training epoch (`NfnetModelUtils._train_epoch`)

The model, the criterion and the device/precision plumbing are library
objects; they enter the embedding as abstract functions over exact
rationals.  A batch is the pair `(inputs, targets)` yielded by the data
loader; `inputs.size (0)` is the length of the input list.  The
`is_nan` flag in the source only drives `print` calls and has no effect
on the returned value, so it is not carried in the state. -/

/-- One batch yielded by the data loader. -/
structure TrainBatch (α : Type) where
  inputs : List α
  targets : List ℤ
deriving DecidableEq, Repr

/-- Largest value of a list of logits (0 for the empty list, which never
occurs for a real output row). -/
def maxVal : List ℚ → ℚ
  | [] => 0
  | [v] => v
  | v :: l => max v (maxVal l)

/-- Index returned by `torch.max (output, 1)` for one output row: the
first index attaining the maximum. -/
def argmaxIdx : List ℚ → ℕ
  | [] => 0
  | [_] => 0
  | v :: l => if maxVal l ≤ v then 0 else argmaxIdx l + 1

/-- `(predicted == targets).sum ().item ()` for one batch: the number of
positions whose argmax prediction equals the target. -/
def countCorrect (outputs : List (List ℚ)) (targets : List ℤ) : ℕ :=
  (List.zipWith (fun o t => if (argmaxIdx o : ℤ) = t then 1 else 0) outputs targets).sum

/-- Body of the batch loop of `_train_epoch`: accumulates
`running_loss += loss.item () * inputs.size (0)` and
`correct_labels += (predicted == targets).sum ().item ()`.  The
optimizer / gradient-scaler calls mutate the model only and do not touch
the accumulators. -/
def trainEpochStep {α : Type} (model : α → List ℚ)
    (criterion : List (List ℚ) → List ℤ → ℚ)
    (st : ℚ × ℕ) (b : TrainBatch α) : ℚ × ℕ :=
  let output := b.inputs.map model
  let loss := criterion output b.targets
  let tem := loss * (b.inputs.length : ℚ)
  (st.1 + tem, st.2 + countCorrect output b.targets)

/-- `NfnetModelUtils._train_epoch`: one pass over the batches of the
data loader of the training dataset, then division of both accumulators
by `len (train_dataset)` (`numSamples`).  When the dataset is empty the
final Python division `running_loss / len (train_dataset)` raises
`ZeroDivisionError`. -/
def NfnetModelUtils.trainEpoch {α : Type} (model : α → List ℚ)
    (criterion : List (List ℚ) → List ℤ → ℚ)
    (batches : List (TrainBatch α)) (numSamples : ℕ) :
    Except PyError (ℚ × ℚ) :=
  let s := batches.foldl (trainEpochStep model criterion) (0, 0)
  if numSamples = 0 then .error .zeroDivisionError
  else .ok (s.1 / (numSamples : ℚ), (s.2 : ℚ) / (numSamples : ℚ))

/-! ## Nfnet optimizer construction (`NfnetModelUtils._get_optimizer`) -/

/-- The fields of `NfnetConfig` read by `_get_optimizer`.  They are
plain class attributes and can be overridden by callers, so theorems
quantify over their values. -/
structure NfnetOptConfig where
  learning_rate : ℚ
  momentum : ℚ
  weight_decay : ℚ
  clipping : ℚ
  nesterov : Bool
deriving DecidableEq, Repr

/-- The part of the NFNet model that `_get_optimizer` consults: the
names of its parameters and its two exclusion predicates. -/
structure NfModel where
  paramNames : List String
  excludeFromWeightDecay : String → Bool
  excludeFromClipping : String → Bool

/-- One entry of `optimizer.param_groups`. -/
structure ParamGroup where
  name : String
  lr : ℚ
  momentum : ℚ
  weight_decay : ℚ
  clipping : Option ℚ
  nesterov : Bool
deriving DecidableEq, Repr

/-- The library `SGD_AGC` constructor (nfnets package): it creates one
parameter group per named parameter, all sharing the hyper-parameters it
was given, and records the parameter name in the group. -/
def SGD_AGC (named : List String) (lr momentum clip wd : ℚ) (nest : Bool) :
    List ParamGroup :=
  named.map fun n =>
    { name := n, lr := lr, momentum := momentum, weight_decay := wd
      clipping := some clip, nesterov := nest }

/-- `NfnetModelUtils._get_optimizer`: build the `SGD_AGC` optimizer from
the config fields, then walk `param_groups` setting `weight_decay` to 0
on groups excluded from weight decay and `clipping` to `None` on groups
excluded from clipping. -/
def NfnetModelUtils.getOptimizer (model : NfModel) (config : NfnetOptConfig) :
    List ParamGroup :=
  (SGD_AGC model.paramNames config.learning_rate config.momentum
      config.clipping config.weight_decay config.nesterov).map fun g =>
    let g1 := if model.excludeFromWeightDecay g.name then
      { g with weight_decay := 0 } else g
    if model.excludeFromClipping g1.name then
      { g1 with clipping := none } else g1

/-! ## VAE (`lab3/vae/model.py`)

Layer construction: `nn.Linear` requires integer sizes and raises
`TypeError` when handed a Python float; `dim / 2` is Python true
division, which always produces a float. -/

/-- A Python number passed as a layer size: either `int` or `float`. -/
inductive PySize where
  | int (i : ℤ)
  | float (q : ℚ)
deriving DecidableEq, Repr

/-- Python true division of two integers: always a float. -/
def pyDivSize (a b : ℤ) : PySize := .float ((a : ℚ) / (b : ℚ))

structure Conv2d where
  inCh : ℤ
  outCh : ℤ
  kernel : ℤ
  stride : ℤ
  padding : ℤ
deriving DecidableEq, Repr

structure Linear where
  inF : ℤ
  outF : ℤ
deriving DecidableEq, Repr

/-- `nn.Linear (i, o)`: torch materialises the weight with
`torch.empty ((o, i))`, which raises `TypeError` unless both sizes are
Python ints. -/
def nnLinear : PySize → PySize → Except PyError Linear
  | .int a, .int b => .ok ⟨a, b⟩
  | _, _ => .error .typeError

/-- The fields of `ModelConfig` read by the VAE model constructors. -/
structure ModelConfig where
  latent_dims : ℤ
  capacity : ℤ
  variational_beta : ℤ
  input_shape : ℤ × ℤ
deriving DecidableEq, Repr

structure Encoder where
  conv1 : Conv2d
  conv2 : Conv2d
  fc : Linear
  fc_mu : Linear
  fc_logvar : Linear
deriving DecidableEq, Repr

/-- `Encoder.__init__`: the two convolutions, then
`nn.Linear (dim, dim / 2)`, `nn.Linear (dim / 2, latent_dims)` twice,
with `dim = c * 2 * (input_shape [0] // 4) ** 2`. -/
def Encoder.init (config : ModelConfig) : Except PyError Encoder :=
  let c := config.capacity * config.input_shape.2
  let conv1 : Conv2d := ⟨config.input_shape.2, c, 4, 2, 1⟩
  let conv2 : Conv2d := ⟨c, c * 2, 4, 2, 1⟩
  let dim := c * 2 * (Int.fdiv config.input_shape.1 4) ^ 2
  match nnLinear (.int dim) (pyDivSize dim 2) with
  | .error e => .error e
  | .ok fc =>
    match nnLinear (pyDivSize dim 2) (.int config.latent_dims) with
    | .error e => .error e
    | .ok fc_mu =>
      match nnLinear (pyDivSize dim 2) (.int config.latent_dims) with
      | .error e => .error e
      | .ok fc_logvar => .ok ⟨conv1, conv2, fc, fc_mu, fc_logvar⟩

structure Decoder where
  fc1 : Linear
  fc2 : Linear
  conv2 : Conv2d
  conv1 : Conv2d
deriving DecidableEq, Repr

/-- `Decoder.__init__`: the `fc` Sequential holds
`nn.Linear (latent_dims, dim / 2)` and `nn.Linear (dim / 2, dim)`,
then the two transposed convolutions. -/
def Decoder.init (config : ModelConfig) : Except PyError Decoder :=
  let c := config.capacity * config.input_shape.2
  let dim := c * 2 * (Int.fdiv config.input_shape.1 4) ^ 2
  match nnLinear (.int config.latent_dims) (pyDivSize dim 2) with
  | .error e => .error e
  | .ok fc1 =>
    match nnLinear (pyDivSize dim 2) (.int dim) with
    | .error e => .error e
    | .ok fc2 =>
      .ok ⟨fc1, fc2, ⟨c * 2, c, 4, 2, 1⟩, ⟨c, config.input_shape.2, 4, 2, 1⟩⟩

/-- `VariationalAutoencoder.__init__`: constructs the encoder, then the
decoder. -/
def VariationalAutoencoder.init (config : ModelConfig) :
    Except PyError (Encoder × Decoder) :=
  match Encoder.init config with
  | .error e => .error e
  | .ok enc =>
    match Decoder.init config with
    | .error e => .error e
    | .ok dec => .ok (enc, dec)

/-! ## VAE forward pass

`forward` and `latent_sample` are plain dataflow over library tensor
operations; the encoder, the decoder and the library `exp` enter as
abstract functions, and the fresh standard-normal sample drawn by
`torch.empty_like (std).normal_ ()` is an explicit argument. -/

/-- A trained (or untrained) VAE instance as `forward` sees it. -/
structure VAEModel where
  encode : List ℚ → List ℚ × List ℚ
  decode : List ℚ → List ℚ
  expf : ℚ → ℚ
  training : Bool

/-- `VariationalAutoencoder.latent_sample`: in training mode the
reparameterization trick `eps * exp (0.5 * logvar) + mu` (elementwise);
otherwise `mu` itself. -/
def VAEModel.latent_sample (m : VAEModel) (eps mu logvar : List ℚ) :
    List ℚ :=
  if m.training then
    let std := logvar.map fun v => m.expf (v * (1 / 2))
    List.zipWith (fun a b => a + b) (List.zipWith (fun a b => a * b) eps std) mu
  else mu

/-- `VariationalAutoencoder.forward`. -/
def VAEModel.forward (m : VAEModel) (eps x : List ℚ) :
    List ℚ × List ℚ × List ℚ :=
  let p := m.encode x
  let latent := m.latent_sample eps p.1 p.2
  (m.decode latent, p.1, p.2)

/-! ## Well-formedness predicates and concrete fixtures -/

/-- The preconditions that `Dataset.__init__` itself asserts on a
train/eval dataframe: an `img` column exists, and the `label` column
exists with an integer dtype (the documented input format). -/
def DataFrame.wf (df : DataFrame) : Bool :=
  decide ("img" ∈ df.colNames) &&
    (match labelDtypeOf df with
     | some dt => dt.isInteger
     | none => false)

/-- A row whose cell in column `li` is unchanged by the `int64` cast:
either it is not an integer cell or its value already lies in the signed
64-bit range (true for every value of a signed integer dtype). -/
def rowFit (li : ℕ) (r : Row) : Bool :=
  match r[li]? with
  | some (.int i) => decide (-(2 ^ 63) ≤ i ∧ i < 2 ^ 63)
  | _ => true

/-- Every label cell of the dataframe survives the `int64` cast
unchanged. -/
def DataFrame.labelsFit (df : DataFrame) : Bool :=
  df.rows.all (rowFit (labelIdx df))

/-- The exact condition under which `Dataset.__init__` raises
`AssertionError` through one of its own `assert` statements: unknown
mode, missing `img` column, or (for non-inference modes) a `label`
column with a non-integer dtype. -/
def initAssertCond (df : DataFrame) (mode : String) : Bool :=
  !(decide (mode ∈ (["train", "eval", "inference"] : List String))) ||
  !(decide ("img" ∈ df.colNames)) ||
  (decide (mode ≠ "inference") &&
    (match labelDtypeOf df with
     | some dt => !dt.isInteger
     | none => false))

/-- A well-formed two-row dataframe in the documented input format. -/
def dfA : DataFrame :=
  { colNames := ["img", "label"]
    dtypes := [.object, .int64]
    rows := [[.str "a.png", .int 0], [.str "b.png", .int 1]] }

/-- A well-formed one-row dataframe in the documented input format. -/
def dfB : DataFrame :=
  { colNames := ["img", "label"]
    dtypes := [.object, .int64]
    rows := [[.str "a.png", .int 0]] }

/-- A well-formed three-row dataframe in the documented input format. -/
def dfC : DataFrame :=
  { colNames := ["img", "label"]
    dtypes := [.object, .int64]
    rows := [[.str "a.png", .int 0], [.str "b.png", .int 1], [.str "c.png", .int 2]] }

/-- A concrete VAE instance in eval mode (identity encoder halves). -/
def vaeM : VAEModel :=
  { encode := fun x => (x, x)
    decode := fun l => l
    expf := fun q => q
    training := false }

/-- A one-parameter NFNet model excluding nothing. -/
def nfModelPlain : NfModel :=
  { paramNames := ["stem.conv0.weight"]
    excludeFromWeightDecay := fun _ => false
    excludeFromClipping := fun _ => false }

/-- An optimizer config whose `weight_decay` field is 0. -/
def nfConfigZeroWd : NfnetOptConfig :=
  { learning_rate := 1 / 10
    momentum := 9 / 10
    weight_decay := 0
    clipping := 1 / 10
    nesterov := true }

/-- The CUDA-availability guard at the head of `main` in `lab2/do.py`:
`assert torch.cuda.is_available ()`, the one repository-raised error
condition outside `dataset.py`.  The rest of `main` only dispatches to
the training entry points and is outside the scope of the claims, so
the embedding records just whether the guard passes. -/
def mainCudaGuard (cudaAvailable : Bool) : Except PyError Unit :=
  if cudaAvailable then .ok () else .error .assertionError

/-! ## Basic lemmas about the embedding -/

theorem updateAt_nil {α : Type} (f : α → α) (i : ℕ) : updateAt f i [] = [] := by
  cases i <;> rfl

theorem updateAt_length {α : Type} (f : α → α) :
    ∀ (i : ℕ) (l : List α), (updateAt f i l).length = l.length
  | _, [] => by rw [updateAt_nil]
  | 0, _ :: _ => rfl
  | n + 1, _ :: l => by simp [updateAt, updateAt_length f n l]

theorem updateAt_getElem?_eq {α : Type} (f : α → α) :
    ∀ (i : ℕ) (l : List α), (updateAt f i l)[i]? = l[i]?.map f
  | i, [] => by rw [updateAt_nil]; simp
  | 0, a :: l => by simp [updateAt]
  | n + 1, a :: l => by
    show (a :: updateAt f n l)[n + 1]? = _
    simp only [List.getElem?_cons_succ]
    exact updateAt_getElem?_eq f n l

theorem updateAt_getElem?_ne {α : Type} (f : α → α) :
    ∀ (i j : ℕ) (l : List α), i ≠ j → (updateAt f i l)[j]? = l[j]?
  | _, _, [], _ => by rw [updateAt_nil]
  | 0, 0, a :: l, h => absurd rfl h
  | 0, j + 1, a :: l, _ => by simp [updateAt]
  | i + 1, 0, a :: l, _ => by simp [updateAt]
  | i + 1, j + 1, a :: l, h => by
    show (a :: updateAt f i l)[j + 1]? = _
    simp only [List.getElem?_cons_succ]
    exact updateAt_getElem?_ne f i j l (by omega)

theorem int64wrap_eq_self {i : ℤ} (h1 : -(2 ^ 63) ≤ i) (h2 : i < 2 ^ 63) :
    int64wrap i = i := by
  unfold int64wrap
  have h3 : (i + 2 ^ 63) % 2 ^ 64 = i + 2 ^ 63 :=
    Int.emod_eq_of_lt (by omega) (by omega)
  omega

theorem updateAt_castInt64_of_rowFit :
    ∀ (li : ℕ) (r : Row), rowFit li r = true → updateAt PyVal.castInt64 li r = r
  | li, [], _ => updateAt_nil _ li
  | 0, v :: t, h => by
    have hv : PyVal.castInt64 v = v := by
      unfold rowFit at h
      simp only [List.getElem?_cons_zero] at h
      cases v with
      | int i =>
        simp only [PyVal.castInt64]
        have hr := of_decide_eq_true h
        rw [int64wrap_eq_self hr.1 hr.2]
      | float q => rfl
      | str s => rfl
      | noneV => rfl
    simp [updateAt, hv]
  | n + 1, v :: t, h => by
    have ht : rowFit n t = true := by
      unfold rowFit at h ⊢
      simpa using h
    simp [updateAt, updateAt_castInt64_of_rowFit n t ht]

theorem map_updateAt_of_all_fit (li : ℕ) :
    ∀ (l : List Row), l.all (rowFit li) = true →
      l.map (updateAt PyVal.castInt64 li) = l
  | [], _ => rfl
  | r :: l, h => by
    rw [List.all_cons, Bool.and_eq_true] at h
    simp [updateAt_castInt64_of_rowFit li r h.1, map_updateAt_of_all_fit li l h.2]

theorem castLabel_colNames (df : DataFrame) :
    (castLabel df).colNames = df.colNames := rfl

theorem labelIdx_castLabel (df : DataFrame) :
    labelIdx (castLabel df) = labelIdx df := rfl

theorem castLabel_rows_of_fit (df : DataFrame) (h : df.labelsFit = true) :
    (castLabel df).rows = df.rows :=
  map_updateAt_of_all_fit (labelIdx df) df.rows h

theorem wf_img (df : DataFrame) (h : df.wf = true) : "img" ∈ df.colNames := by
  unfold DataFrame.wf at h
  rw [Bool.and_eq_true] at h
  exact of_decide_eq_true h.1

theorem wf_label (df : DataFrame) (h : df.wf = true) :
    ∃ dt, labelDtypeOf df = some dt ∧ dt.isInteger = true := by
  unfold DataFrame.wf at h
  rw [Bool.and_eq_true] at h
  cases hd : labelDtypeOf df with
  | none => rw [hd] at h; exact absurd h.2 (by simp)
  | some dt => rw [hd] at h; exact ⟨dt, rfl, h.2⟩

theorem labelDtypeOf_castLabel (df : DataFrame) (dt : NpDtype)
    (h : labelDtypeOf df = some dt) :
    labelDtypeOf (castLabel df) = some NpDtype.int64 := by
  unfold labelDtypeOf at h ⊢
  by_cases hlt : labelIdx df < df.colNames.length
  · rw [if_pos hlt] at h
    rw [labelIdx_castLabel, castLabel_colNames, if_pos hlt]
    show (updateAt (fun _ => NpDtype.int64) (labelIdx df) df.dtypes)[labelIdx df]? = _
    rw [updateAt_getElem?_eq, h]
    rfl
  · rw [if_neg hlt] at h
    exact absurd h (by simp)

theorem wf_castLabel (df : DataFrame) (h : df.wf = true) :
    (castLabel df).wf = true := by
  obtain ⟨dt, hdt, _⟩ := wf_label df h
  unfold DataFrame.wf
  rw [Bool.and_eq_true]
  constructor
  · rw [castLabel_colNames]
    exact decide_eq_true (wf_img df h)
  · rw [labelDtypeOf_castLabel df dt hdt]
    rfl

theorem labelsFit_castLabel (df : DataFrame) (h : df.labelsFit = true) :
    (castLabel df).labelsFit = true := by
  unfold DataFrame.labelsFit
  rw [castLabel_rows_of_fit df h, labelIdx_castLabel]
  exact h

theorem labelsFit_rows (df : DataFrame) (rs : List Row)
    (h : ∀ r ∈ rs, rowFit (labelIdx df) r = true) :
    ({ df with rows := rs } : DataFrame).labelsFit = true := by
  unfold DataFrame.labelsFit
  exact List.all_eq_true.2 h

theorem labelsFit_mem (df : DataFrame) (h : df.labelsFit = true)
    {r : Row} (hr : r ∈ df.rows) : rowFit (labelIdx df) r = true :=
  List.all_eq_true.1 h r hr

theorem pyInt_of_nonneg {q : ℚ} (h : 0 ≤ q) : pyInt q = ⌊q⌋ := if_pos h

theorem pyInt_ge_one {q : ℚ} (h : 1 ≤ pyInt q) : 0 ≤ q ∧ pyInt q = ⌊q⌋ := by
  by_cases hq : 0 ≤ q
  · exact ⟨hq, if_pos hq⟩
  · exfalso
    rw [pyInt, if_neg hq] at h
    have hc : ⌈q⌉ ≤ 0 := Int.ceil_le.2 (by push_cast; linarith [not_le.1 hq])
    omega

/-- `Dataset.__init__` on a mode-valid, well-formed train/eval frame:
succeeds and performs the in-place label cast. -/
theorem init_ok (df : DataFrame) (mode : String)
    (hm : mode = "train" ∨ mode = "eval") (hwf : df.wf = true) :
    Dataset.init df mode = .ok (⟨castLabel df, mode⟩, castLabel df) := by
  obtain ⟨dt, hdt, hint⟩ := wf_label df hwf
  have himg : "img" ∈ df.colNames := wf_img df hwf
  have hmem : mode ∈ (["train", "eval", "inference"] : List String) := by
    rcases hm with h | h <;> simp [h]
  have hninf : mode ≠ "inference" := by
    rcases hm with h | h <;> simp [h]
  unfold Dataset.init
  rw [if_pos hmem, if_pos himg, if_pos hninf, hdt]
  simp [hint]

/-- The sklearn size validation only ever raises `ValueError`. -/
theorem validateShuffleSplit_error (n : ℕ) (t : ℤ) (e : PyError)
    (h : validateShuffleSplit n t = .error e) : e = .valueError := by
  unfold validateShuffleSplit at h
  by_cases hc : (n : ℤ) ≤ t ∨ t ≤ 0
  · rw [if_pos hc] at h
    injection h with h2
    exact h2.symm
  · rw [if_neg hc] at h
    exact absurd h (by simp)

theorem validateShuffleSplit_ok (n : ℕ) (t : ℤ) (h1 : 1 ≤ t)
    (h2 : t < (n : ℤ)) :
    validateShuffleSplit n t = .ok (t.toNat, n - t.toNat) := by
  unfold validateShuffleSplit
  rw [if_neg (by omega)]

/-- Characterization of the `AssertionError` outcomes of
`Dataset.__init__`: exactly the conditions checked by its own `assert`
statements. -/
theorem init_assertionError_iff (df : DataFrame) (mode : String) :
    Dataset.init df mode = .error .assertionError ↔
      initAssertCond df mode = true := by
  unfold Dataset.init initAssertCond
  by_cases h1 : mode ∈ (["train", "eval", "inference"] : List String)
  · rw [if_pos h1]
    by_cases h2 : "img" ∈ df.colNames
    · rw [if_pos h2]
      by_cases h3 : mode ≠ "inference"
      · rw [if_pos h3]
        cases hd : labelDtypeOf df with
        | none => simp [h1, h2, h3]
        | some dt =>
          by_cases h4 : dt.isInteger = true
          · simp [h1, h2, h3, h4]
          · have h4f : dt.isInteger = false := by
              cases hdt : dt.isInteger
              · rfl
              · exact absurd hdt h4
            simp [h1, h2, h3, h4f]
      · rw [if_neg h3]
        simp [h1, h2, h3]
    · rw [if_neg h2]
      simp [h1, h2]
  · rw [if_neg h1]
    simp [h1]

/-- When the ratio assertion of `train_test_split` fails, the result is
exactly `AssertionError`. -/
theorem tts_assert_of_ge_one (df : DataFrame) (r : ℚ) (perm : List Row)
    (modes : String × String) (h : ¬ r < 1) :
    Dataset.train_test_split df r perm modes = .error .assertionError := by
  unfold Dataset.train_test_split
  rw [if_neg h]

/-- When the ratio assertion holds and neither requested mode triggers
an `__init__` assertion on the frame, `train_test_split` never raises
`AssertionError` (its remaining failures are library errors). -/
theorem tts_no_assert (df : DataFrame) (r : ℚ) (perm : List Row)
    (modes : String × String) (h : r < 1)
    (h1 : ¬ initAssertCond df modes.1 = true)
    (h2 : ¬ initAssertCond df modes.2 = true) :
    Dataset.train_test_split df r perm modes ≠ .error .assertionError := by
  unfold Dataset.train_test_split
  rw [if_pos h]
  intro hcontra
  cases hval : validateShuffleSplit df.rows.length (pyInt ((df.rows.length : ℚ) * r)) with
  | error e =>
    have he := validateShuffleSplit_error _ _ _ hval
    simp only [hval] at hcontra
    rw [he] at hcontra
    exact absurd hcontra (by simp)
  | ok p =>
    obtain ⟨nTrain, nTest⟩ := p
    simp only [hval] at hcontra
    cases hi1 : Dataset.init { df with rows := perm.take nTrain } modes.1 with
    | error e =>
      simp only [hi1] at hcontra
      have he : e = .assertionError := by simpa using hcontra
      rw [he] at hi1
      have hcond := (init_assertionError_iff _ modes.1).1 hi1
      exact h1 hcond
    | ok v1 =>
      obtain ⟨ds1, rest1⟩ := v1
      simp only [hi1] at hcontra
      cases hi2 : Dataset.init { df with rows := perm.drop nTrain } modes.2 with
      | error e =>
        simp only [hi2] at hcontra
        have he : e = .assertionError := by simpa using hcontra
        rw [he] at hi2
        have hcond := (init_assertionError_iff _ modes.2).1 hi2
        exact h2 hcond
      | ok v2 =>
        obtain ⟨ds2, rest2⟩ := v2
        simp only [hi2] at hcontra
        exact absurd hcontra (by simp)

/-- Success shape of `train_test_split` on a well-formed frame whose
ratio yields a feasible train size: the two datasets built from the
prefix and the suffix of the shuffled rows, each frame label-cast by
`__init__`. -/
theorem tts_ok (df : DataFrame) (r : ℚ) (perm : List Row) (m1 m2 : String)
    (hm1 : m1 = "train" ∨ m1 = "eval") (hm2 : m2 = "train" ∨ m2 = "eval")
    (hwf : df.wf = true)
    (hr : r < 1) (hsz : 1 ≤ pyInt ((df.rows.length : ℚ) * r)) :
    Dataset.train_test_split df r perm (m1, m2) =
      .ok (⟨castLabel { df with
              rows := perm.take (pyInt ((df.rows.length : ℚ) * r)).toNat }, m1⟩,
           ⟨castLabel { df with
              rows := perm.drop (pyInt ((df.rows.length : ℚ) * r)).toNat }, m2⟩) := by
  obtain ⟨hq0, hpy⟩ := pyInt_ge_one hsz
  set t : ℤ := pyInt ((df.rows.length : ℚ) * r) with htdef
  have hq1 : (1 : ℚ) ≤ (df.rows.length : ℚ) * r := by
    have h1 := Int.le_floor.1 (hpy ▸ hsz)
    exact_mod_cast h1
  have hn : 0 < df.rows.length := by
    by_contra h0
    push_neg at h0
    have h0' : df.rows.length = 0 := by omega
    rw [h0'] at hq1
    simp at hq1
    linarith
  have htlt : t < (df.rows.length : ℤ) := by
    rw [hpy]
    refine Int.floor_lt.2 ?_
    have hnq : (0 : ℚ) < (df.rows.length : ℚ) := by exact_mod_cast hn
    have hlt := mul_lt_mul_of_pos_left hr hnq
    rw [mul_one] at hlt
    push_cast
    exact hlt
  have hval := validateShuffleSplit_ok df.rows.length t hsz htlt
  unfold Dataset.train_test_split
  rw [if_pos hr]
  simp only [hval]
  have hi1 := init_ok { df with rows := perm.take t.toNat } m1 hm1 hwf
  have hi2 := init_ok { df with rows := perm.drop t.toNat } m2 hm2 hwf
  simp only [hi1, hi2]

/-- When the sum assertion of `split` fails, the result is exactly
`AssertionError`. -/
theorem split_assert_of_gt (df : DataFrame) (r0 r1 : ℚ) (p1 p2 : List Row)
    (h : ¬ r0 + r1 ≤ 1) :
    Dataset.split df r0 r1 p1 p2 = .error .assertionError := by
  unfold Dataset.split
  rw [if_neg h]

/-! ## Claim theorems -/

/-- C1 (amended): for a dataframe in the documented train/eval format
(an `img` column and an integer-dtype `label` column whose values lie in
the signed 64-bit range), distinct rows, a shuffle `perm` of its rows,
and a train proportion with `0 <= r < 1` whose train size
`floor (n * r)` is at least 1, `Dataset.train_test_split` returns a pair
of datasets whose dataframes are disjoint, together contain exactly the
`n` rows of `df`, and whose train part has exactly `floor (n * r)` rows,
the eval part holding the remaining rows.  (The original claim, without
the `1 <= floor (n * r)` bound, fails: sklearn rejects an empty train
slice with `ValueError`.) -/
theorem C1_train_test_split_partition (df : DataFrame) (r : ℚ)
    (perm : List Row)
    (hwf : df.wf = true) (hfit : df.labelsFit = true)
    (hnd : df.rows.Nodup) (hperm : perm.Perm df.rows)
    (hr0 : 0 ≤ r) (hr1 : r < 1)
    (hsz : 1 ≤ ⌊(df.rows.length : ℚ) * r⌋) :
    ∃ ds1 ds2,
      Dataset.train_test_split df r perm ("train", "eval") = .ok (ds1, ds2) ∧
      ds1.df.rows.length = (⌊(df.rows.length : ℚ) * r⌋).toNat ∧
      ds2.df.rows.length = df.rows.length - (⌊(df.rows.length : ℚ) * r⌋).toNat ∧
      (ds1.df.rows ++ ds2.df.rows).Perm df.rows ∧
      ds1.df.rows.Disjoint ds2.df.rows := by
  have hq0 : 0 ≤ (df.rows.length : ℚ) * r := by positivity
  have hpy : pyInt ((df.rows.length : ℚ) * r) = ⌊(df.rows.length : ℚ) * r⌋ :=
    pyInt_of_nonneg hq0
  have hsz' : 1 ≤ pyInt ((df.rows.length : ℚ) * r) := by rw [hpy]; exact hsz
  have key := tts_ok df r perm "train" "eval" (Or.inl rfl) (Or.inr rfl) hwf hr1 hsz'
  rw [hpy] at key
  set t : ℕ := (⌊(df.rows.length : ℚ) * r⌋).toNat with htdef
  have hq1 : (1 : ℚ) ≤ (df.rows.length : ℚ) * r := by
    have h1 := Int.le_floor.1 hsz
    exact_mod_cast h1
  have hn : 0 < df.rows.length := by
    by_contra h0
    push_neg at h0
    have h0' : df.rows.length = 0 := by omega
    rw [h0'] at hq1
    simp at hq1
    linarith
  have hflt : ⌊(df.rows.length : ℚ) * r⌋ < (df.rows.length : ℤ) := by
    refine Int.floor_lt.2 ?_
    have hnq : (0 : ℚ) < (df.rows.length : ℚ) := by exact_mod_cast hn
    have hlt := mul_lt_mul_of_pos_left hr1 hnq
    rw [mul_one] at hlt
    push_cast
    exact hlt
  have hlenp : perm.length = df.rows.length := hperm.length_eq
  have htle : t ≤ perm.length := by rw [hlenp]; omega
  have hpnd : perm.Nodup := (hperm.nodup_iff).2 hnd
  have hf1 : (castLabel { df with rows := perm.take t } : DataFrame).rows =
      perm.take t := by
    apply castLabel_rows_of_fit
    apply labelsFit_rows
    intro row hrow
    exact labelsFit_mem df hfit (hperm.subset (List.take_subset t perm hrow))
  have hf2 : (castLabel { df with rows := perm.drop t } : DataFrame).rows =
      perm.drop t := by
    apply castLabel_rows_of_fit
    apply labelsFit_rows
    intro row hrow
    exact labelsFit_mem df hfit (hperm.subset (List.drop_subset t perm hrow))
  refine ⟨_, _, key, ?_, ?_, ?_, ?_⟩
  · show (castLabel { df with rows := perm.take t } : DataFrame).rows.length = t
    rw [hf1, List.length_take]
    omega
  · show (castLabel { df with rows := perm.drop t } : DataFrame).rows.length =
      df.rows.length - t
    rw [hf2, List.length_drop, hlenp]
  · show ((castLabel { df with rows := perm.take t } : DataFrame).rows ++
      (castLabel { df with rows := perm.drop t } : DataFrame).rows).Perm df.rows
    rw [hf1, hf2, List.take_append_drop]
    exact hperm
  · show ((castLabel { df with rows := perm.take t } : DataFrame).rows).Disjoint
      ((castLabel { df with rows := perm.drop t } : DataFrame).rows)
    rw [hf1, hf2]
    exact List.disjoint_take_drop hpnd le_rfl

/-- C1 witness: a concrete two-row dataframe split with proportion 1/2
satisfies all hypotheses of the amended claim. -/
theorem C1_witness :
    ∃ ds1 ds2,
      Dataset.train_test_split dfA (1 / 2) dfA.rows ("train", "eval") =
        .ok (ds1, ds2) ∧
      ds1.df.rows.length = (⌊(dfA.rows.length : ℚ) * (1 / 2)⌋).toNat ∧
      ds2.df.rows.length =
        dfA.rows.length - (⌊(dfA.rows.length : ℚ) * (1 / 2)⌋).toNat ∧
      (ds1.df.rows ++ ds2.df.rows).Perm dfA.rows ∧
      ds1.df.rows.Disjoint ds2.df.rows :=
  C1_train_test_split_partition dfA (1 / 2) dfA.rows (by decide) (by decide)
    (by decide) (List.Perm.refl _) (by norm_num) (by norm_num) (by norm_num [dfA])

/-- C1 counterexample: the claim as stated admits `train_ratio = 0`
(`0 <= 0 < 1`) and promises a pair with an empty train part, but on a
well-formed one-row dataframe the code propagates the sklearn
`ValueError` for the empty train slice and returns no pair. -/
theorem C1_counterexample :
    Dataset.train_test_split dfB 0 dfB.rows ("train", "eval") =
      .error .valueError := by
  unfold Dataset.train_test_split
  rw [if_pos (by norm_num)]
  have h1 : pyInt ((dfB.rows.length : ℚ) * 0) = 0 := by norm_num [pyInt]
  rw [h1]
  rfl

/-- C2 (amended): on a well-formed dataframe with distinct rows, for
nonnegative proportions with `r0 + r1 < 1` whose two derived slice sizes
`floor (n * r0)` and `floor ((n - floor (n * r0)) * (r1 / (1 - r0)))`
are both at least 1, `Dataset.split` returns three datasets whose rows
partition the rows of `df`, with the stated sizes for the train and
valid parts, the train dataset in mode train and the other two in mode
eval.  (The original claim, with no lower bound on the slice sizes,
fails: sklearn rejects an empty slice with `ValueError`.) -/
theorem C2_split_partition (df : DataFrame) (r0 r1 : ℚ) (p1 p2 : List Row)
    (hwf : df.wf = true) (hfit : df.labelsFit = true) (hnd : df.rows.Nodup)
    (hp1 : p1.Perm df.rows)
    (hp2 : p2.Perm (p1.drop (⌊(df.rows.length : ℚ) * r0⌋).toNat))
    (hr1 : 0 ≤ r1) (hsum : r0 + r1 < 1)
    (ht : 1 ≤ ⌊(df.rows.length : ℚ) * r0⌋)
    (hv : 1 ≤ ⌊((df.rows.length - (⌊(df.rows.length : ℚ) * r0⌋).toNat : ℕ) : ℚ) *
      (r1 / (1 - r0))⌋) :
    ∃ tr va te,
      Dataset.split df r0 r1 p1 p2 = .ok (tr, va, te) ∧
      tr.mode = "train" ∧ va.mode = "eval" ∧ te.mode = "eval" ∧
      tr.df.rows.length = (⌊(df.rows.length : ℚ) * r0⌋).toNat ∧
      va.df.rows.length =
        (⌊((df.rows.length - (⌊(df.rows.length : ℚ) * r0⌋).toNat : ℕ) : ℚ) *
          (r1 / (1 - r0))⌋).toNat ∧
      (tr.df.rows ++ va.df.rows ++ te.df.rows).Perm df.rows ∧
      tr.df.rows.Disjoint va.df.rows ∧
      tr.df.rows.Disjoint te.df.rows ∧
      va.df.rows.Disjoint te.df.rows := by
  have hq1 : (1 : ℚ) ≤ (df.rows.length : ℚ) * r0 := by
    exact_mod_cast Int.le_floor.1 ht
  have hn : 0 < df.rows.length := by
    by_contra h0
    push_neg at h0
    have h0' : df.rows.length = 0 := by omega
    rw [h0'] at hq1
    simp at hq1
    linarith
  have hr0pos : 0 < r0 := by
    by_contra hcon
    push_neg at hcon
    nlinarith [hq1, Nat.cast_nonneg (α := ℚ) df.rows.length]
  have hr0lt1 : r0 < 1 := by linarith
  have hvrden : 0 < 1 - r0 := by linarith
  have hvr_lt : r1 / (1 - r0) < 1 := (div_lt_one hvrden).2 (by linarith)
  have hvr_nonneg : 0 ≤ r1 / (1 - r0) := div_nonneg hr1 (le_of_lt hvrden)
  have hq0 : 0 ≤ (df.rows.length : ℚ) * r0 :=
    mul_nonneg (Nat.cast_nonneg _) (le_of_lt hr0pos)
  have hpy1 : pyInt ((df.rows.length : ℚ) * r0) = ⌊(df.rows.length : ℚ) * r0⌋ :=
    pyInt_of_nonneg hq0
  have key1 := tts_ok df r0 p1 "train" "eval" (Or.inl rfl) (Or.inr rfl) hwf hr0lt1
    (by rw [hpy1]; exact ht)
  rw [hpy1] at key1
  set t : ℕ := (⌊(df.rows.length : ℚ) * r0⌋).toNat with htdef
  have hflt : ⌊(df.rows.length : ℚ) * r0⌋ < (df.rows.length : ℤ) := by
    refine Int.floor_lt.2 ?_
    have hnq : (0 : ℚ) < (df.rows.length : ℚ) := by exact_mod_cast hn
    have hlt := mul_lt_mul_of_pos_left hr0lt1 hnq
    rw [mul_one] at hlt
    push_cast
    exact hlt
  have hlen1 : p1.length = df.rows.length := hp1.length_eq
  have htle : t ≤ p1.length := by rw [hlen1]; omega
  set F : DataFrame := { df with rows := p1.drop t } with hFdef
  have hfitF : F.labelsFit = true := by
    apply labelsFit_rows
    intro row hrow
    exact labelsFit_mem df hfit (hp1.subset (List.drop_subset t p1 hrow))
  have hFrows : (castLabel F).rows = p1.drop t := castLabel_rows_of_fit F hfitF
  have hwfF : (castLabel F).wf = true := wf_castLabel F hwf
  have hlenF : (castLabel F).rows.length = df.rows.length - t := by
    rw [hFrows, List.length_drop, hlen1]
  have hpy2 : pyInt (((castLabel F).rows.length : ℚ) * (r1 / (1 - r0))) =
      ⌊((df.rows.length - t : ℕ) : ℚ) * (r1 / (1 - r0))⌋ := by
    rw [hlenF]
    exact pyInt_of_nonneg (mul_nonneg (Nat.cast_nonneg _) hvr_nonneg)
  have hsz2 : 1 ≤ pyInt (((castLabel F).rows.length : ℚ) * (r1 / (1 - r0))) := by
    rw [hpy2]
    exact hv
  have key2 := tts_ok (castLabel F) (r1 / (1 - r0)) p2 "eval" "eval"
    (Or.inr rfl) (Or.inr rfl) hwfF hvr_lt hsz2
  rw [hpy2] at key2
  set v : ℕ := (⌊((df.rows.length - t : ℕ) : ℚ) * (r1 / (1 - r0))⌋).toNat with hvdef
  -- arithmetic facts for the second slice
  have hq1v : (1 : ℚ) ≤ ((df.rows.length - t : ℕ) : ℚ) * (r1 / (1 - r0)) := by
    exact_mod_cast Int.le_floor.1 hv
  have hm : 0 < df.rows.length - t := by
    by_contra h0
    push_neg at h0
    have h0' : df.rows.length - t = 0 := by omega
    rw [h0'] at hq1v
    simp at hq1v
    linarith
  have hfltv : ⌊((df.rows.length - t : ℕ) : ℚ) * (r1 / (1 - r0))⌋ <
      ((df.rows.length - t : ℕ) : ℤ) := by
    refine Int.floor_lt.2 ?_
    have hmq : (0 : ℚ) < ((df.rows.length - t : ℕ) : ℚ) := by exact_mod_cast hm
    have hlt := mul_lt_mul_of_pos_left hvr_lt hmq
    rw [mul_one] at hlt
    push_cast
    exact hlt
  have hlen2 : p2.length = df.rows.length - t := by
    rw [hp2.length_eq, List.length_drop, hlen1]
  have hvle : v ≤ p2.length := by rw [hlen2]; omega
  -- nodup facts
  have hnd1 : p1.Nodup := (hp1.nodup_iff).2 hnd
  have hndd : (p1.drop t).Nodup := hnd1.sublist (List.drop_sublist t p1)
  have hnd2 : p2.Nodup := (hp2.nodup_iff).2 hndd
  have d1 : (p1.take t).Disjoint (p1.drop t) := List.disjoint_take_drop hnd1 le_rfl
  have d2 : (p2.take v).Disjoint (p2.drop v) := List.disjoint_take_drop hnd2 le_rfl
  -- rows of the three datasets
  have hftr : (castLabel { df with rows := p1.take t } : DataFrame).rows =
      p1.take t := by
    apply castLabel_rows_of_fit
    apply labelsFit_rows
    intro row hrow
    exact labelsFit_mem df hfit (hp1.subset (List.take_subset t p1 hrow))
  have hmemp2 : ∀ {row : Row}, row ∈ p2 → row ∈ df.rows := by
    intro row hrow
    exact hp1.subset (List.drop_subset t p1 (hp2.subset hrow))
  have hfva : (castLabel { castLabel F with rows := p2.take v } : DataFrame).rows =
      p2.take v := by
    apply castLabel_rows_of_fit
    apply labelsFit_rows
    intro row hrow
    exact labelsFit_mem df hfit (hmemp2 (List.take_subset v p2 hrow))
  have hfte : (castLabel { castLabel F with rows := p2.drop v } : DataFrame).rows =
      p2.drop v := by
    apply castLabel_rows_of_fit
    apply labelsFit_rows
    intro row hrow
    exact labelsFit_mem df hfit (hmemp2 (List.drop_subset v p2 hrow))
  -- assemble the split
  unfold Dataset.split
  rw [if_pos (le_of_lt hsum)]
  simp only [key1]
  simp only [key2]
  refine ⟨_, _, _, rfl, rfl, rfl, rfl, ?_, ?_, ?_, ?_, ?_, ?_⟩
  · show (castLabel { df with rows := p1.take t } : DataFrame).rows.length = t
    rw [hftr, List.length_take]
    omega
  · show (castLabel { castLabel F with rows := p2.take v } : DataFrame).rows.length = v
    rw [hfva, List.length_take]
    omega
  · show ((castLabel { df with rows := p1.take t } : DataFrame).rows ++
        (castLabel { castLabel F with rows := p2.take v } : DataFrame).rows ++
        (castLabel { castLabel F with rows := p2.drop v } : DataFrame).rows).Perm
      df.rows
    rw [hftr, hfva, hfte, List.append_assoc, List.take_append_drop]
    have happ : p1.take t ++ p1.drop t = p1 := List.take_append_drop t p1
    have h2 : (p1.take t ++ p1.drop t).Perm df.rows := by rw [happ]; exact hp1
    exact (List.Perm.append_left (p1.take t) hp2).trans h2
  · show ((castLabel { df with rows := p1.take t } : DataFrame).rows).Disjoint
      ((castLabel { castLabel F with rows := p2.take v } : DataFrame).rows)
    rw [hftr, hfva]
    intro a ha hb
    exact d1 ha (hp2.subset (List.take_subset v p2 hb))
  · show ((castLabel { df with rows := p1.take t } : DataFrame).rows).Disjoint
      ((castLabel { castLabel F with rows := p2.drop v } : DataFrame).rows)
    rw [hftr, hfte]
    intro a ha hb
    exact d1 ha (hp2.subset (List.drop_subset v p2 hb))
  · show ((castLabel { castLabel F with rows := p2.take v } : DataFrame).rows).Disjoint
      ((castLabel { castLabel F with rows := p2.drop v } : DataFrame).rows)
    rw [hfva, hfte]
    exact d2

/-- C2 witness: a three-row dataframe split with proportions
`(1/3, 1/3)` satisfies all hypotheses of the amended claim: the train
size is `floor (3 * 1/3) = 1` and the valid size is
`floor (2 * ((1/3) / (2/3))) = 1`. -/
theorem C2_witness :
    ∃ tr va te,
      Dataset.split dfC (1 / 3) (1 / 3) dfC.rows (dfC.rows.drop 1) =
        .ok (tr, va, te) ∧
      tr.mode = "train" ∧ va.mode = "eval" ∧ te.mode = "eval" ∧
      tr.df.rows.length = (⌊(dfC.rows.length : ℚ) * (1 / 3)⌋).toNat ∧
      va.df.rows.length =
        (⌊((dfC.rows.length - (⌊(dfC.rows.length : ℚ) * (1 / 3)⌋).toNat : ℕ) : ℚ) *
          ((1 / 3) / (1 - 1 / 3))⌋).toNat ∧
      (tr.df.rows ++ va.df.rows ++ te.df.rows).Perm dfC.rows ∧
      tr.df.rows.Disjoint va.df.rows ∧
      tr.df.rows.Disjoint te.df.rows ∧
      va.df.rows.Disjoint te.df.rows :=
  C2_split_partition dfC (1 / 3) (1 / 3) dfC.rows (dfC.rows.drop 1)
    (by decide) (by decide) (by decide) (List.Perm.refl _)
    (by
      have h : (⌊(dfC.rows.length : ℚ) * (1 / 3)⌋).toNat = 1 := by
        norm_num [dfC]
      rw [h])
    (by norm_num) (by norm_num) (by norm_num [dfC])
    (by
      have h : (⌊(dfC.rows.length : ℚ) * (1 / 3)⌋).toNat = 1 := by
        norm_num [dfC]
      rw [h]
      norm_num [dfC])

/-- C2 counterexample: the claim as stated only demands `r0 + r1 < 1`,
but on a well-formed one-row dataframe with proportions `(1/3, 1/3)`
the first inner split has train size `floor (1 * 1/3) = 0`, sklearn
raises `ValueError`, and no triple of datasets is returned. -/
theorem C2_counterexample :
    Dataset.split dfB (1 / 3) (1 / 3) dfB.rows dfB.rows =
      .error .valueError := by
  have htts : Dataset.train_test_split dfB (1 / 3) dfB.rows ("train", "eval") =
      .error .valueError := by
    unfold Dataset.train_test_split
    rw [if_pos (by norm_num)]
    have h1 : pyInt ((dfB.rows.length : ℚ) * (1 / 3)) = 0 := by
      norm_num [pyInt, dfB]
    rw [h1]
    rfl
  unfold Dataset.split
  rw [if_pos (by norm_num), htts]

/-- C3 (amended): with `r0 + r1 = 1` and `0 < r0 < 1`, `Dataset.split`
never returns a triple of datasets; moreover, whenever the first inner
split succeeds (well-formed frame, `1 <= floor (n * r0)`), the failure
is precisely the `AssertionError` of the `train_ratio < 1` precondition
of the second inner `train_test_split`, whose ratio `r1 / (1 - r0)`
equals 1.  (The original claim promised an `AssertionError`
unconditionally; when the first split itself fails, the error is the
sklearn `ValueError` instead.) -/
theorem C3_split_sum_one (df : DataFrame) (r0 r1 : ℚ) (p1 p2 : List Row)
    (hsum : r0 + r1 = 1) (h0 : 0 < r0) (h1 : r0 < 1) :
    (∃ e, Dataset.split df r0 r1 p1 p2 = .error e) ∧
    (df.wf = true → 1 ≤ ⌊(df.rows.length : ℚ) * r0⌋ →
      Dataset.split df r0 r1 p1 p2 = .error .assertionError) := by
  have hvr : r1 / (1 - r0) = 1 := by
    have hr1eq : r1 = 1 - r0 := by linarith
    rw [hr1eq]
    exact div_self (by linarith)
  have hassert : ∀ (df2 : DataFrame) (p : List Row),
      Dataset.train_test_split df2 (r1 / (1 - r0)) p ("eval", "eval") =
        .error .assertionError := by
    intro df2 p
    apply tts_assert_of_ge_one
    rw [hvr]
    exact lt_irrefl 1
  constructor
  · unfold Dataset.split
    rw [if_pos (le_of_eq hsum)]
    cases htts : Dataset.train_test_split df r0 p1 ("train", "eval") with
    | error e =>
      refine ⟨e, ?_⟩
      simp only [htts]
    | ok pr =>
      obtain ⟨tr, ev⟩ := pr
      refine ⟨.assertionError, ?_⟩
      simp only [htts, hassert]
  · intro hwf hsz
    have hq0 : 0 ≤ (df.rows.length : ℚ) * r0 :=
      mul_nonneg (Nat.cast_nonneg _) (le_of_lt h0)
    have key := tts_ok df r0 p1 "train" "eval" (Or.inl rfl) (Or.inr rfl) hwf h1
      (by rw [pyInt_of_nonneg hq0]; exact hsz)
    unfold Dataset.split
    rw [if_pos (le_of_eq hsum)]
    simp only [key, hassert]

/-- C3 witness: on a well-formed two-row dataframe with
`r0 = r1 = 1/2` (`r0 + r1 = 1`), `Dataset.split` raises exactly the
`AssertionError` of the inner `train_ratio < 1` assertion. -/
theorem C3_witness :
    Dataset.split dfA (1 / 2) (1 / 2) dfA.rows dfA.rows =
      .error .assertionError :=
  (C3_split_sum_one dfA (1 / 2) (1 / 2) dfA.rows dfA.rows
    (by norm_num) (by norm_num) (by norm_num)).2 (by decide) (by norm_num [dfA])

/-- C3 counterexample: the claim as stated promises an `AssertionError`
for every dataframe, but on a well-formed one-row dataframe with
`r0 = r1 = 1/2` the first inner split already fails with the sklearn
`ValueError` (train size `floor (1 * 1/2) = 0`), so no assertion is
reached. -/
theorem C3_counterexample :
    Dataset.split dfB (1 / 2) (1 / 2) dfB.rows dfB.rows =
      .error .valueError ∧
    Dataset.split dfB (1 / 2) (1 / 2) dfB.rows dfB.rows ≠
      .error .assertionError := by
  have htts : Dataset.train_test_split dfB (1 / 2) dfB.rows ("train", "eval") =
      .error .valueError := by
    unfold Dataset.train_test_split
    rw [if_pos (by norm_num)]
    have h1 : pyInt ((dfB.rows.length : ℚ) * (1 / 2)) = 0 := by
      norm_num [pyInt, dfB]
    rw [h1]
    rfl
  have hmain : Dataset.split dfB (1 / 2) (1 / 2) dfB.rows dfB.rows =
      .error .valueError := by
    unfold Dataset.split
    rw [if_pos (by norm_num), htts]
  refine ⟨hmain, ?_⟩
  rw [hmain]
  simp

/-- C5 (amended): the repository's own code does detect and raise
error conditions, through precondition `assert` statements: in
`Dataset.__init__` (unknown mode, missing `img` column, non-integer
`label` dtype), in `train_test_split` (`train_ratio < 1`), in `split`
(`sum (split_ratio) <= 1`), and at the head of `main` in `lab2/do.py`
(`assert torch.cuda.is_available ()`); in addition, the
`try/except ImportError` at the top of `dataset.py` catches an
exception with a fallback import, and `_train_epoch` detects NaN batch
losses but only prints a warning.  Formally: `Dataset.__init__` raises
`AssertionError` precisely under its asserted conditions;
`train_test_split` raises `AssertionError` when `train_ratio >= 1` and
never otherwise on assertion-clean frames (its remaining failures are
propagated library errors); `split` raises `AssertionError` when the
ratio sum exceeds 1; and the `main` guard raises `AssertionError`
exactly when CUDA is unavailable. -/
theorem C5_own_failure_detection :
    (∀ (df : DataFrame) (mode : String),
      Dataset.init df mode = .error .assertionError ↔
        initAssertCond df mode = true) ∧
    (∀ (df : DataFrame) (r : ℚ) (perm : List Row) (modes : String × String),
      ¬ r < 1 →
        Dataset.train_test_split df r perm modes = .error .assertionError) ∧
    (∀ (df : DataFrame) (r : ℚ) (perm : List Row) (modes : String × String),
      r < 1 → ¬ initAssertCond df modes.1 = true →
        ¬ initAssertCond df modes.2 = true →
        Dataset.train_test_split df r perm modes ≠ .error .assertionError) ∧
    (∀ (df : DataFrame) (r0 r1 : ℚ) (p1 p2 : List Row),
      ¬ r0 + r1 ≤ 1 →
        Dataset.split df r0 r1 p1 p2 = .error .assertionError) ∧
    (∀ b : Bool, mainCudaGuard b = .error .assertionError ↔ b = false) :=
  ⟨init_assertionError_iff, tts_assert_of_ge_one, tts_no_assert,
    split_assert_of_gt, fun b => by cases b <;> simp [mainCudaGuard]⟩

/-- C5 witness: concrete instances of each part of the
characterization — an out-of-range ratio trips the repository's own
assertion, an in-range ratio on a clean frame never produces an
`AssertionError`, an over-unit ratio sum trips the `split` assertion,
and a CUDA-less run trips the `main` guard. -/
theorem C5_witness :
    Dataset.train_test_split dfA 2 dfA.rows ("train", "eval") =
      .error .assertionError ∧
    Dataset.train_test_split dfA (1 / 2) dfA.rows ("train", "eval") ≠
      .error .assertionError ∧
    Dataset.split dfA (4 / 5) (4 / 5) dfA.rows dfA.rows =
      .error .assertionError ∧
    mainCudaGuard false = .error .assertionError :=
  ⟨C5_own_failure_detection.2.1 dfA 2 dfA.rows ("train", "eval") (by norm_num),
   C5_own_failure_detection.2.2.1 dfA (1 / 2) dfA.rows ("train", "eval")
     (by norm_num) (by decide) (by decide),
   C5_own_failure_detection.2.2.2.1 dfA (4 / 5) (4 / 5) dfA.rows dfA.rows
     (by norm_num),
   (C5_own_failure_detection.2.2.2.2 false).2 rfl⟩

/-- C5 counterexample: the claim says no error condition is detected
and raised by the repository's own code, but `Dataset.split` with
`split_ratio` summing to `8/5 > 1` fails through the repository's own
`assert sumation <= 1.0` with an `AssertionError` — an error condition
detected and raised by repository code, not a propagated library
exception. -/
theorem C5_counterexample :
    Dataset.split dfB (4 / 5) (4 / 5) dfB.rows dfB.rows =
      .error .assertionError :=
  split_assert_of_gt dfB (4 / 5) (4 / 5) dfB.rows dfB.rows (by norm_num)

/-- Closed form of the accumulator fold of the `_train_epoch` batch
loop. -/
theorem trainEpoch_foldl {α : Type} (model : α → List ℚ)
    (criterion : List (List ℚ) → List ℤ → ℚ) :
    ∀ (batches : List (TrainBatch α)) (a : ℚ) (c : ℕ),
      batches.foldl (trainEpochStep model criterion) (a, c) =
        (a + (batches.map fun b =>
          criterion (b.inputs.map model) b.targets * (b.inputs.length : ℚ)).sum,
         c + (batches.map fun b =>
          countCorrect (b.inputs.map model) b.targets).sum)
  | [], a, c => by simp
  | b :: bs, a, c => by
    rw [List.foldl_cons, trainEpoch_foldl model criterion bs]
    show (_ + _, _ + _) = _
    simp [trainEpochStep]
    constructor
    · ring
    · omega

/-- C4 (amended): for every nonempty training dataset,
`NfnetModelUtils._train_epoch` makes exactly one pass over the batches
of the data loader and returns the pair of the per-batch loss sum
(each batch loss weighted by its batch size) divided by the number of
samples, and the count of samples whose argmax prediction equals the
target divided by the number of samples.  (The original claim, over
every training dataset, fails on the empty dataset: the final division
by `len (train_dataset) = 0` raises `ZeroDivisionError`.) -/
theorem C4_train_epoch_sums {α : Type} (model : α → List ℚ)
    (criterion : List (List ℚ) → List ℤ → ℚ)
    (batches : List (TrainBatch α)) (numSamples : ℕ)
    (hn : numSamples ≠ 0)
    (_hsum : (batches.map fun b => b.inputs.length).sum = numSamples) :
    NfnetModelUtils.trainEpoch model criterion batches numSamples =
      .ok ((batches.map fun b =>
            criterion (b.inputs.map model) b.targets * (b.inputs.length : ℚ)).sum /
              (numSamples : ℚ),
           ((batches.map fun b =>
            countCorrect (b.inputs.map model) b.targets).sum : ℚ) /
              (numSamples : ℚ)) := by
  unfold NfnetModelUtils.trainEpoch
  rw [if_neg hn, trainEpoch_foldl]
  simp

/-- C4 witness: a single one-sample batch with constant loss 2 and a
correct argmax prediction yields `(2, 1)`. -/
theorem C4_witness :
    NfnetModelUtils.trainEpoch (fun _ : ℚ => [(1 : ℚ), 0]) (fun _ _ => 2)
      [⟨[0], [0]⟩] 1 = .ok (2, 1) := by
  have h := C4_train_epoch_sums (fun _ : ℚ => [(1 : ℚ), 0]) (fun _ _ => 2)
    [⟨[0], [0]⟩] 1 (by norm_num) (by simp)
  rw [h]
  norm_num [countCorrect, argmaxIdx, maxVal]

/-- C4 counterexample: on the empty training dataset (no batches, zero
samples) the final division of `_train_epoch` raises
`ZeroDivisionError`, so no pair is returned. -/
theorem C4_counterexample :
    NfnetModelUtils.trainEpoch (fun _ : ℚ => [(1 : ℚ), 0]) (fun _ _ => 2)
      [] 0 = .error .zeroDivisionError := rfl

/-- C6: for every `ModelConfig`, constructing the VAE fails: the hidden
size `dim / 2` is Python true division and yields a float, which
`nn.Linear` rejects with `TypeError`, so neither `Encoder` nor
`Decoder` — and hence no `VariationalAutoencoder` — is ever
constructed. -/
theorem C6_vae_construction_fails (config : ModelConfig) :
    Encoder.init config = .error .typeError ∧
    Decoder.init config = .error .typeError ∧
    VariationalAutoencoder.init config = .error .typeError := by
  exact ⟨rfl, rfl, rfl⟩

/-- C7: `VariationalAutoencoder.forward` returns exactly
`(decoder (latent), mu, logvar)` with `(mu, logvar) = encoder (x)` and
`latent = latent_sample (mu, logvar)`; when the model is not in
training mode, `latent_sample` returns `mu` itself, so `forward`
reduces to `(decoder (mu), mu, logvar)`. -/
theorem C7_vae_forward (m : VAEModel) (eps x : List ℚ) :
    m.forward eps x =
      (m.decode (m.latent_sample eps (m.encode x).1 (m.encode x).2),
       (m.encode x).1, (m.encode x).2) ∧
    (m.training = false →
      m.forward eps x =
        (m.decode (m.encode x).1, (m.encode x).1, (m.encode x).2)) := by
  constructor
  · rfl
  · intro h
    unfold VAEModel.forward VAEModel.latent_sample
    rw [h]
    simp

/-- C7 witness: a concrete eval-mode VAE where both parts of the claim
compute. -/
theorem C7_witness :
    vaeM.forward [1] [2] =
      (vaeM.decode (vaeM.encode [2]).1, (vaeM.encode [2]).1,
        (vaeM.encode [2]).2) :=
  (C7_vae_forward vaeM [1] [2]).2 rfl

/-- C8 (amended): `_get_optimizer` builds one `SGD_AGC` parameter group
per named parameter, configured only from the config's learning rate,
momentum, clipping, weight decay and nesterov fields; a group's
`weight_decay` is 0 when its name is excluded from weight decay and is
the config's `weight_decay` otherwise, and its `clipping` is `None`
when its name is excluded from clipping and is the config's `clipping`
otherwise; no other field is modified.  (The original claim's
`weight_decay = 0` iff excluded fails when the config's own
`weight_decay` is 0.) -/
theorem C8_get_optimizer (model : NfModel) (config : NfnetOptConfig) :
    NfnetModelUtils.getOptimizer model config = model.paramNames.map fun n =>
      { name := n
        lr := config.learning_rate
        momentum := config.momentum
        weight_decay :=
          if model.excludeFromWeightDecay n then 0 else config.weight_decay
        clipping :=
          if model.excludeFromClipping n then none else some config.clipping
        nesterov := config.nesterov } := by
  unfold NfnetModelUtils.getOptimizer SGD_AGC
  rw [List.map_map]
  congr 1
  funext n
  by_cases h1 : model.excludeFromWeightDecay n <;>
    by_cases h2 : model.excludeFromClipping n <;>
      simp [Function.comp, h1, h2]

/-- C8 counterexample: with a config whose `weight_decay` field is 0
and a model excluding nothing, the unique parameter group has
`weight_decay = 0` although `exclude_from_weight_decay` is false — the
claimed equivalence fails in the right-to-left direction. -/
theorem C8_counterexample :
    NfnetModelUtils.getOptimizer nfModelPlain nfConfigZeroWd =
      [{ name := "stem.conv0.weight", lr := 1 / 10, momentum := 9 / 10,
         weight_decay := 0, clipping := some (1 / 10), nesterov := true }] ∧
    nfModelPlain.excludeFromWeightDecay "stem.conv0.weight" = false :=
  ⟨rfl, rfl⟩

/-- C9: when `Dataset.__init__` is called with mode train or eval on a
dataframe in the documented format, construction succeeds and mutates
the dataframe object passed by the caller in place (the dataset stores
that same object): afterwards the `label` column has dtype `int64` and
each of its cells is the `int64` cast of the original cell, while every
other column (values and dtype) is unchanged. -/
theorem C9_init_mutates_caller_df (df : DataFrame) (mode : String)
    (hm : mode = "train" ∨ mode = "eval") (hwf : df.wf = true) :
    ∃ ds : Dataset,
      Dataset.init df mode = .ok (ds, castLabel df) ∧
      ds.df = castLabel df ∧
      (castLabel df).colNames = df.colNames ∧
      labelDtypeOf (castLabel df) = some NpDtype.int64 ∧
      ((castLabel df).rows.map fun row => row[labelIdx df]?) =
        (df.rows.map fun row => row[labelIdx df]?.map PyVal.castInt64) ∧
      ∀ j, j ≠ labelIdx df →
        (castLabel df).dtypes[j]? = df.dtypes[j]? ∧
        ((castLabel df).rows.map fun row => row[j]?) =
          (df.rows.map fun row => row[j]?) := by
  obtain ⟨dt, hdt, hint⟩ := wf_label df hwf
  refine ⟨⟨castLabel df, mode⟩, init_ok df mode hm hwf, rfl, rfl,
    labelDtypeOf_castLabel df dt hdt, ?_, ?_⟩
  · show ((df.rows.map (updateAt PyVal.castInt64 (labelIdx df))).map
        fun row => row[labelIdx df]?) = _
    rw [List.map_map]
    congr 1
    funext row
    exact updateAt_getElem?_eq PyVal.castInt64 (labelIdx df) row
  · intro j hj
    constructor
    · show (updateAt (fun _ => NpDtype.int64) (labelIdx df) df.dtypes)[j]? = _
      exact updateAt_getElem?_ne _ _ _ _ (fun hc => hj hc.symm)
    · show ((df.rows.map (updateAt PyVal.castInt64 (labelIdx df))).map
          fun row => row[j]?) = _
      rw [List.map_map]
      congr 1
      funext row
      exact updateAt_getElem?_ne _ _ _ _ (fun hc => hj hc.symm)

/-- C9 witness: the concrete two-row dataframe, mode train. -/
theorem C9_witness :
    ∃ ds : Dataset,
      Dataset.init dfA "train" = .ok (ds, castLabel dfA) ∧
      ds.df = castLabel dfA ∧
      (castLabel dfA).colNames = dfA.colNames ∧
      labelDtypeOf (castLabel dfA) = some NpDtype.int64 ∧
      ((castLabel dfA).rows.map fun row => row[labelIdx dfA]?) =
        (dfA.rows.map fun row => row[labelIdx dfA]?.map PyVal.castInt64) ∧
      ∀ j, j ≠ labelIdx dfA →
        (castLabel dfA).dtypes[j]? = dfA.dtypes[j]? ∧
        ((castLabel dfA).rows.map fun row => row[j]?) =
          (dfA.rows.map fun row => row[j]?) :=
  C9_init_mutates_caller_df dfA "train" (Or.inl rfl) (by decide)

end MlPractices
